import Mathlib

/-!
Shallow embedding of the segment time-alignment and audio-track assembly
engine of the video-dubbing repository (src/src/audio_generator.py), and
proofs checking the specification's claims against it.

Conventions of the embedding:
* Python strings are modelled as `List Char`; `str.split(':')` is
  `splitOnColon`, `str.ljust(n, c)` is `ljust`, Python `int(...)` is
  `pyInt?` (returning `none` where `int` raises `ValueError`).
* Audio is modelled at pydub's millisecond granularity: an audio segment
  is a `List Int` of one amplitude sample per millisecond, so
  `len(segment)` is `List.length` and `AudioSegment.silent(d)` is
  `List.replicate d 0`.
* Python floats (durations in seconds) are modelled as `ℚ`; the inputs
  appearing in the claims are exactly representable.
* The librosa phase-vocoder `time_stretch` is floating-point DSP whose
  numerics are external to this repository; its output is therefore an
  explicit parameter (`y_stretched`) of the embedded `_adjust_audio_speed`,
  universally quantified in the theorems.  Every branch that inspects that
  output in the source is embedded faithfully.
* File I/O (`sf.write`, `AudioSegment.export`) is modelled by returning
  the written contents; exception paths that the source catches and turns
  into sentinel return values are embedded as those return values.
-/

/-! ## TimeCodec: `_time_to_milliseconds` (src/src/audio_generator.py, lines 331-354) -/

/-- Characters stripped by Python `str.strip()` / ignored by `int()` around
the digits: ASCII whitespace. -/
def isSpaceChar (c : Char) : Bool :=
  c = ' ' || c = '\t' || c = '\n' || c = '\r' || c = '\x0b' || c = '\x0c'

/-- Models Python whitespace stripping done by `int()` on its string argument. -/
def stripChars (s : List Char) : List Char :=
  ((s.dropWhile isSpaceChar).reverse.dropWhile isSpaceChar).reverse

/-- Numeric value of a decimal digit character. -/
def digitVal (c : Char) : Nat := c.toNat - 48

/-- Remaining digits of a Python integer literal after the first digit:
decimal digits, optionally separated by single underscores
(`digit (('_')? digit)*`, as accepted by Python `int()`). -/
def digitsTail (acc : Nat) : List Char → Option Nat
  | [] => some acc
  | c :: rest =>
    if c.isDigit then digitsTail (10 * acc + digitVal c) rest
    else if c = '_' then
      match rest with
      | [] => none
      | c2 :: rest2 =>
        if c2.isDigit then digitsTail (10 * acc + digitVal c2) rest2 else none
    else none

/-- Unsigned part of a Python integer literal: at least one digit, then
`digitsTail`. -/
def parseUnsigned : List Char → Option Nat
  | [] => none
  | c :: rest => if c.isDigit then digitsTail (digitVal c) rest else none

/-- Models Python `int(s)` on a string: strip whitespace, optional single
sign, decimal digits (single underscores between digits allowed); `none`
models the `ValueError` raised on any other input.  (Non-ASCII digit
characters, which Python also accepts, do not occur in this system's
timestamp data and are modelled as failures.) -/
def pyInt? (s : List Char) : Option Int :=
  match stripChars s with
  | [] => none
  | c :: rest =>
    if c = '-' then (parseUnsigned rest).map (fun n => -(n : Int))
    else if c = '+' then (parseUnsigned rest).map (fun n => (n : Int))
    else (parseUnsigned (c :: rest)).map (fun n => (n : Int))

/-- Models Python `s.ljust(n, c)`: right-pad with `c` to length `n`
(no-op when already at least that long). -/
def ljust (s : List Char) (n : Nat) (c : Char) : List Char :=
  s ++ List.replicate (n - s.length) c

/-- Models Python `s.split(':')`. -/
def splitOnColon : List Char → List (List Char)
  | [] => [[]]
  | c :: rest =>
    if c = ':' then [] :: splitOnColon rest
    else
      match splitOnColon rest with
      | [] => [[c]]
      | g :: gs => (c :: g) :: gs

/-- Body of `_time_to_milliseconds` after the split (lines 336-350): a
4-field form `HH:MM:SS:mmm`, a 3-field form `MM:SS:mmm` (milliseconds
right-padded with `'0'` to 3 digits via `ljust`), any other field count or
unparseable field raising `ValueError`, which the enclosing handler
(lines 352-354) converts to `0`. -/
def msOfParts : List (List Char) → Int
  | [p0, p1, p2, p3] =>
    match pyInt? p0, pyInt? p1, pyInt? p2, pyInt? (ljust p3 3 '0') with
    | some hours, some minutes, some seconds, some milliseconds =>
      (hours * 3600 + minutes * 60 + seconds) * 1000 + milliseconds
    | _, _, _, _ => 0
  | [p0, p1, p2] =>
    match pyInt? p0, pyInt? p1, pyInt? (ljust p2 3 '0') with
    | some minutes, some seconds, some milliseconds =>
      (minutes * 60 + seconds) * 1000 + milliseconds
    | _, _, _ => 0
  | _ => 0

/-- Models `_time_to_milliseconds` (lines 331-354): split on `':'`, then
`msOfParts`; totality of the Lean function models the fact that the
Python function catches every exception and returns `0`. -/
def timeToMilliseconds (time_str : List Char) : Int :=
  msOfParts (splitOnColon time_str)

/-- Value of a digit string read in base 10 (what Python `int` returns on
a plain digit string). -/
def digitsToNat (s : List Char) : Nat :=
  s.foldl (fun n c => 10 * n + digitVal c) 0

/-! ## DurationFitter: `_adjust_audio_speed` (src/src/audio_generator.py, lines 215-280) -/

/-- Models `librosa.util.fix_length(data, size=n)`: truncate to `n`
samples when longer, zero-pad at the end when shorter. -/
def fixLength (xs : List Int) (size : Nat) : List Int :=
  if size ≤ xs.length then xs.take size
  else xs ++ List.replicate (size - xs.length) 0

/-- Models `_adjust_audio_speed` (lines 215-280).  `y` is the loaded
waveform (one entry per sample), `sr` its sample rate, `target_duration`
the target in seconds, and `y_stretched` the output of
`librosa.effects.time_stretch(y, rate=current_duration/target_duration)`,
passed explicitly (see the header).  The result is `some` written fitted
waveform, or `none` where the source returns `False` (lines 235-237 for a
non-positive current or target duration, lines 260-262 for empty stretch
output with a positive sample target).  `int()` on the non-negative float
`target_duration * sr` (line 257) is `Int.floor`.  The extreme-ratio
check (lines 248-250) only prints a warning and does not affect the
result.  The `sf.write`/reload verification (lines 267-271) is modelled
by returning the written samples. -/
def adjustAudioSpeed (y : List Int) (sr : Nat) (target_duration : ℚ)
    (y_stretched : List Int) : Option (List Int) :=
  let current_duration : ℚ := (y.length : ℚ) / (sr : ℚ)
  if current_duration ≤ 0 ∨ target_duration ≤ 0 then none
  else
    let target_length_samples : ℤ := ⌊target_duration * (sr : ℚ)⌋
    if y_stretched.length = 0 ∧ target_length_samples > 0 then none
    else some (fixLength y_stretched target_length_samples.toNat)

/-- Models lines 132-143 of `_generate_segment_audio`: when speed
adjustment succeeds the adjusted file is used, otherwise the raw file is
substituted (`adjusted_audio_file = raw_audio_file`). -/
def chooseFinalAudio (raw : List Int) (adjusted : Option (List Int)) : List Int :=
  match adjusted with
  | some a => a
  | none => raw

/-! ## TrackAssembler: `_combine_audio_segments` (src/src/audio_generator.py, lines 282-329) -/

/-- One entry of the `segments` list reaching `_combine_audio_segments`:
its ordering index, its `start_time` text, and the contents of its
`final_audio_file` at millisecond granularity. -/
structure Segment where
  segment_index : Nat
  start_time : List Char
  final_audio : List Int

/-- Models pydub `segment.fade_in(10)`: an amplitude ramp over the first
10 milliseconds (the exact gain curve is irrelevant to every property
below; only that the operation is sample-wise and length-preserving). -/
def fadeIn10 (xs : List Int) : List Int :=
  List.zipWith (fun (i : Nat) (a : Int) => if i < 10 then a * ((i : Int) + 1) / 10 else a)
    (List.range xs.length) xs

/-- Models pydub `segment.fade_out(10)`: the mirrored ramp over the last
10 milliseconds. -/
def fadeOut10 (xs : List Int) : List Int :=
  (fadeIn10 xs.reverse).reverse

/-- Models line 316: `segment_audio.fade_in(10).fade_out(10)`. -/
def fadeInOut (xs : List Int) : List Int :=
  fadeOut10 (fadeIn10 xs)

/-- Models one iteration of the assembly loop (lines 304-319).  The state
is `(combined_audio, last_end_time)`.  Silence of `start_time_ms -
last_end_time` ms is appended when the slot starts after the cursor and
the gap exceeds 20 ms (lines 308-311); the faded clip is then appended
and `last_end_time` is set to `start_time_ms + len(segment_audio)`
(lines 313-319). -/
def combineStep (st : List Int × Int) (seg : Segment) : List Int × Int :=
  let start_time_ms := timeToMilliseconds seg.start_time
  let combined :=
    if start_time_ms > st.2 then
      let silence_duration := start_time_ms - st.2
      if silence_duration > 20 then
        st.1 ++ List.replicate silence_duration.toNat 0
      else st.1
    else st.1
  let segment_audio := fadeInOut seg.final_audio
  (combined ++ segment_audio, start_time_ms + (segment_audio.length : Int))

/-- The assembly loop over a list of segments, from the initial state
`(AudioSegment.empty(), 0)` (lines 301-302). -/
def combineFold (segments : List Segment) : List Int × Int :=
  segments.foldl combineStep ([], 0)

/-- Models line 298: `segments.sort(key=lambda x: x.get('segment_index', 0))`
(a stable sort by index). -/
def sortSegments (segments : List Segment) : List Segment :=
  List.insertionSort (fun a b => a.segment_index ≤ b.segment_index) segments

/-- Models `_combine_audio_segments` (lines 282-329): `("", none)` for an
empty input (line 294-295, no file written); otherwise sort, run the
loop, and export the track to
`data/output/dubbed_audio_{session_id}.wav` (lines 321-325), returning
the path and the written samples. -/
def combineAudioSegments (segments : List Segment) (session_id : String) :
    String × Option (List Int) :=
  if segments.isEmpty then ("", none)
  else
    let sorted := sortSegments segments
    let result := combineFold sorted
    ("data/output/dubbed_audio_" ++ session_id ++ ".wav", some result.1)

/-- Placement discipline under which the running `last_end_time` coincides
with the length of the appended material: each clip starts exactly at the
cursor or after a gap of more than 20 ms. -/
def exactPlacement (cursor : Int) : List Segment → Bool
  | [] => true
  | seg :: rest =>
    let s := timeToMilliseconds seg.start_time
    (decide (s = cursor) || decide (s - cursor > 20)) &&
      exactPlacement (s + ((fadeInOut seg.final_audio).length : Int)) rest

/-- Placement discipline with no elided micro-gap: each clip starts at or
before the cursor, or after a gap of more than 20 ms (so every positive
gap actually receives silence). -/
def noElidedGap (cursor : Int) : List Segment → Bool
  | [] => true
  | seg :: rest =>
    let s := timeToMilliseconds seg.start_time
    (decide (s ≤ cursor) || decide (s - cursor > 20)) &&
      noElidedGap (s + ((fadeInOut seg.final_audio).length : Int)) rest

/-- Malformedness of a split timestamp as the code's exception handler
sees it: wrong field count, an unparseable leading field, or a final
field that is still unparseable after the `ljust` padding. -/
def malformedParts : List (List Char) → Bool
  | [p0, p1, p2, p3] =>
    (pyInt? p0).isNone || (pyInt? p1).isNone || (pyInt? p2).isNone ||
      (pyInt? (ljust p3 3 '0')).isNone
  | [p0, p1, p2] =>
    (pyInt? p0).isNone || (pyInt? p1).isNone ||
      (pyInt? (ljust p2 3 '0')).isNone
  | _ => true

/-! ## Lemmas about the TimeCodec embedding -/

lemma not_space_of_digit {c : Char} (h : c.isDigit = true) : isSpaceChar c = false := by
  simp only [Char.isDigit, Bool.and_eq_true, decide_eq_true_eq] at h
  obtain ⟨hl, hr⟩ := h
  unfold isSpaceChar
  simp only [Bool.or_eq_false_iff, decide_eq_false_iff_not]
  refine ⟨⟨⟨⟨⟨?_, ?_⟩, ?_⟩, ?_⟩, ?_⟩, ?_⟩ <;> intro e <;> subst e <;>
    revert hl hr <;> decide

lemma dropWhile_space_of_digits (xs : List Char) (h : ∀ c ∈ xs, c.isDigit = true) :
    xs.dropWhile isSpaceChar = xs := by
  cases xs with
  | nil => rfl
  | cons c rest =>
    rw [List.dropWhile_cons]
    simp [not_space_of_digit (h c (List.mem_cons_self c rest))]

lemma stripChars_of_digits (xs : List Char) (h : ∀ c ∈ xs, c.isDigit = true) :
    stripChars xs = xs := by
  unfold stripChars
  rw [dropWhile_space_of_digits xs h,
    dropWhile_space_of_digits xs.reverse (fun c hc => h c (List.mem_reverse.mp hc)),
    List.reverse_reverse]

lemma digitsTail_of_digits (xs : List Char) : ∀ acc : Nat, (∀ c ∈ xs, c.isDigit = true) →
    digitsTail acc xs = some (xs.foldl (fun n c => 10 * n + digitVal c) acc) := by
  induction xs with
  | nil => intro acc _; rfl
  | cons c rest ih =>
    intro acc h
    have hc := h c (List.mem_cons_self c rest)
    rw [digitsTail.eq_def]
    dsimp only
    rw [if_pos hc, List.foldl_cons]
    exact ih _ (fun d hd => h d (List.mem_cons_of_mem c hd))

lemma parseUnsigned_of_digits (xs : List Char) (hne : xs ≠ [])
    (h : ∀ c ∈ xs, c.isDigit = true) : parseUnsigned xs = some (digitsToNat xs) := by
  cases xs with
  | nil => exact absurd rfl hne
  | cons c rest =>
    have hc := h c (List.mem_cons_self c rest)
    rw [parseUnsigned, if_pos hc,
      digitsTail_of_digits rest (digitVal c) (fun d hd => h d (List.mem_cons_of_mem c hd))]
    unfold digitsToNat
    rw [List.foldl_cons]
    norm_num

lemma pyInt?_of_digits (xs : List Char) (hne : xs ≠ [])
    (h : ∀ c ∈ xs, c.isDigit = true) : pyInt? xs = some ((digitsToNat xs : Int)) := by
  cases xs with
  | nil => exact absurd rfl hne
  | cons c rest =>
    have hs : stripChars (c :: rest) = c :: rest := stripChars_of_digits _ h
    have hc := h c (List.mem_cons_self c rest)
    have hminus : ¬(c = '-') := fun e => absurd hc (by subst e; decide)
    have hplus : ¬(c = '+') := fun e => absurd hc (by subst e; decide)
    rw [pyInt?.eq_def, hs]
    simp only [hminus, hplus, if_false, if_neg hminus, if_neg hplus]
    rw [parseUnsigned_of_digits _ (by simp) h]
    rfl

lemma digitsFold_replicate_zero (k : Nat) : ∀ acc : Nat,
    (List.replicate k '0').foldl (fun n c => 10 * n + digitVal c) acc = acc * 10 ^ k := by
  induction k with
  | zero => intro acc; simp
  | succ k ih =>
    intro acc
    rw [List.replicate_succ, List.foldl_cons, ih]
    have hz : digitVal '0' = 0 := rfl
    rw [hz]
    ring

lemma digitsToNat_ljust_zeros (xs : List Char) (k : Nat) :
    digitsToNat (ljust xs k '0') = digitsToNat xs * 10 ^ (k - xs.length) := by
  unfold digitsToNat ljust
  rw [List.foldl_append]
  exact digitsFold_replicate_zero _ _

lemma ljust_digits (xs : List Char) (k : Nat) (h : ∀ c ∈ xs, c.isDigit = true) :
    ∀ c ∈ ljust xs k '0', c.isDigit = true := by
  intro c hc
  rcases List.mem_append.mp hc with h1 | h1
  · exact h c h1
  · rw [List.eq_of_mem_replicate h1]; decide

lemma ljust_ne_nil (xs : List Char) (k : Nat) (h : xs ≠ []) : ljust xs k '0' ≠ [] := by
  cases xs with
  | nil => exact absurd rfl h
  | cons c rest => simp [ljust]

lemma digit_ne_colon {c : Char} (h : c.isDigit = true) : c ≠ ':' :=
  fun e => absurd h (by subst e; decide)

lemma splitOnColon_append (xs : List Char) (rest : List Char)
    (h : ∀ c ∈ xs, c ≠ ':') :
    splitOnColon (xs ++ ':' :: rest) = xs :: splitOnColon rest := by
  induction xs with
  | nil => simp [splitOnColon]
  | cons c xs ih =>
    have hc : ¬(c = ':') := h c (List.mem_cons_self c xs)
    have ih2 := ih (fun d hd => h d (List.mem_cons_of_mem c hd))
    rw [List.cons_append, splitOnColon, if_neg hc, ih2]

lemma splitOnColon_of_no_colon (xs : List Char) (h : ∀ c ∈ xs, c ≠ ':') :
    splitOnColon xs = [xs] := by
  induction xs with
  | nil => rfl
  | cons c xs ih =>
    have hc : ¬(c = ':') := h c (List.mem_cons_self c xs)
    have ih2 := ih (fun d hd => h d (List.mem_cons_of_mem c hd))
    rw [splitOnColon, if_neg hc, ih2]

lemma timeToMs_four_fields (hh mm ss ms : List Char)
    (h0 : hh ≠ []) (h1 : mm ≠ []) (h2 : ss ≠ []) (h3 : ms ≠ [])
    (d0 : ∀ c ∈ hh, c.isDigit = true) (d1 : ∀ c ∈ mm, c.isDigit = true)
    (d2 : ∀ c ∈ ss, c.isDigit = true) (d3 : ∀ c ∈ ms, c.isDigit = true) :
    timeToMilliseconds (hh ++ ':' :: (mm ++ ':' :: (ss ++ ':' :: ms))) =
      ((digitsToNat hh : Int) * 3600 + (digitsToNat mm : Int) * 60 +
        (digitsToNat ss : Int)) * 1000 + (digitsToNat (ljust ms 3 '0') : Int) := by
  unfold timeToMilliseconds
  rw [splitOnColon_append hh _ (fun c hc => digit_ne_colon (d0 c hc)),
    splitOnColon_append mm _ (fun c hc => digit_ne_colon (d1 c hc)),
    splitOnColon_append ss _ (fun c hc => digit_ne_colon (d2 c hc)),
    splitOnColon_of_no_colon ms (fun c hc => digit_ne_colon (d3 c hc))]
  rw [msOfParts, pyInt?_of_digits hh h0 d0, pyInt?_of_digits mm h1 d1,
    pyInt?_of_digits ss h2 d2,
    pyInt?_of_digits (ljust ms 3 '0') (ljust_ne_nil ms 3 h3) (ljust_digits ms 3 d3)]

lemma timeToMs_three_fields (mm ss ms : List Char)
    (h1 : mm ≠ []) (h2 : ss ≠ []) (h3 : ms ≠ [])
    (d1 : ∀ c ∈ mm, c.isDigit = true) (d2 : ∀ c ∈ ss, c.isDigit = true)
    (d3 : ∀ c ∈ ms, c.isDigit = true) :
    timeToMilliseconds (mm ++ ':' :: (ss ++ ':' :: ms)) =
      ((digitsToNat mm : Int) * 60 + (digitsToNat ss : Int)) * 1000 +
        (digitsToNat (ljust ms 3 '0') : Int) := by
  unfold timeToMilliseconds
  rw [splitOnColon_append mm _ (fun c hc => digit_ne_colon (d1 c hc)),
    splitOnColon_append ss _ (fun c hc => digit_ne_colon (d2 c hc)),
    splitOnColon_of_no_colon ms (fun c hc => digit_ne_colon (d3 c hc))]
  rw [msOfParts, pyInt?_of_digits mm h1 d1, pyInt?_of_digits ss h2 d2,
    pyInt?_of_digits (ljust ms 3 '0') (ljust_ne_nil ms 3 h3) (ljust_digits ms 3 d3)]

/-! ## Claims C6, C7, C10: the timestamp parser -/

/-- C6: For every valid colon-delimited timestamp text with exactly 3
fields (MM:SS:mmm) or exactly 4 fields (HH:MM:SS:mmm), whose integer
fields parse (digit strings) and whose final field has 1-3 digits,
`_time_to_milliseconds` returns the exact millisecond value implied by
right-padding the final field with '0' to 3 digits. -/
theorem timeToMilliseconds_valid_fields (hh mm ss ms : List Char)
    (h0 : hh ≠ []) (h1 : mm ≠ []) (h2 : ss ≠ [])
    (d0 : ∀ c ∈ hh, c.isDigit = true) (d1 : ∀ c ∈ mm, c.isDigit = true)
    (d2 : ∀ c ∈ ss, c.isDigit = true) (d3 : ∀ c ∈ ms, c.isDigit = true)
    (hlo : 1 ≤ ms.length) (hhi : ms.length ≤ 3) :
    timeToMilliseconds (hh ++ ':' :: (mm ++ ':' :: (ss ++ ':' :: ms))) =
      (((digitsToNat hh * 3600 + digitsToNat mm * 60 + digitsToNat ss) * 1000 +
        digitsToNat ms * 10 ^ (3 - ms.length) : Nat) : Int) ∧
    timeToMilliseconds (mm ++ ':' :: (ss ++ ':' :: ms)) =
      (((digitsToNat mm * 60 + digitsToNat ss) * 1000 +
        digitsToNat ms * 10 ^ (3 - ms.length) : Nat) : Int) := by
  have h3 : ms ≠ [] := by
    cases ms
    · simp at hlo
    · simp
  constructor
  · rw [timeToMs_four_fields hh mm ss ms h0 h1 h2 h3 d0 d1 d2 d3,
      digitsToNat_ljust_zeros]
    push_cast
    ring
  · rw [timeToMs_three_fields mm ss ms h1 h2 h3 d1 d2 d3, digitsToNat_ljust_zeros]
    push_cast
    ring

/-- Witness for C6 at the two examples named in the claim:
`"00:01:02:050"` gives 62050 ms and `"01:02:5"` gives 62500 ms. -/
theorem timeToMilliseconds_valid_fields_witness :
    timeToMilliseconds (("00:01:02:050").toList) = 62050 ∧
    timeToMilliseconds (("01:02:5").toList) = 62500 := by
  have h := timeToMilliseconds_valid_fields (("00").toList) (("01").toList)
    (("02").toList) (("050").toList) (by decide) (by decide) (by decide)
    (by decide) (by decide) (by decide) (by decide) (by decide) (by decide)
  have h2 := timeToMilliseconds_valid_fields (("00").toList) (("01").toList)
    (("02").toList) (("5").toList) (by decide) (by decide) (by decide)
    (by decide) (by decide) (by decide) (by decide) (by decide) (by decide)
  constructor
  · have e : ("00:01:02:050").toList =
        ("00").toList ++ ':' :: (("01").toList ++ ':' ::
          (("02").toList ++ ':' :: ("050").toList)) := by decide
    rw [e, h.1]
    decide
  · have e : ("01:02:5").toList =
        ("01").toList ++ ':' :: (("02").toList ++ ':' :: ("5").toList) := by decide
    rw [e, h2.2]
    decide

/-- C10: For a timestamp whose final field is a digit string of more than
3 digits, the `ljust` padding is a no-op, so the parse neither fails nor
truncates: the full integer value of the final field is added to the
seconds total (e.g. `"00:00:01:1500"` yields 2500 ms). -/
theorem timeToMilliseconds_long_final_field (hh mm ss ms : List Char)
    (h0 : hh ≠ []) (h1 : mm ≠ []) (h2 : ss ≠ [])
    (d0 : ∀ c ∈ hh, c.isDigit = true) (d1 : ∀ c ∈ mm, c.isDigit = true)
    (d2 : ∀ c ∈ ss, c.isDigit = true) (d3 : ∀ c ∈ ms, c.isDigit = true)
    (hlen : 3 < ms.length) :
    timeToMilliseconds (hh ++ ':' :: (mm ++ ':' :: (ss ++ ':' :: ms))) =
      (((digitsToNat hh * 3600 + digitsToNat mm * 60 + digitsToNat ss) * 1000 +
        digitsToNat ms : Nat) : Int) ∧
    timeToMilliseconds (mm ++ ':' :: (ss ++ ':' :: ms)) =
      (((digitsToNat mm * 60 + digitsToNat ss) * 1000 + digitsToNat ms : Nat) : Int) := by
  have h3 : ms ≠ [] := by
    intro e
    rw [e] at hlen
    simp at hlen
  have hz : 3 - ms.length = 0 := by omega
  constructor
  · rw [timeToMs_four_fields hh mm ss ms h0 h1 h2 h3 d0 d1 d2 d3,
      digitsToNat_ljust_zeros, hz, pow_zero, Nat.mul_one]
    push_cast
    ring
  · rw [timeToMs_three_fields mm ss ms h1 h2 h3 d1 d2 d3,
      digitsToNat_ljust_zeros, hz, pow_zero, Nat.mul_one]
    push_cast
    ring

/-- Witness for C10 at the claim's example: `"00:00:01:1500"` yields
`(0*3600 + 0*60 + 1)*1000 + 1500 = 2500` ms. -/
theorem timeToMilliseconds_long_final_field_witness :
    timeToMilliseconds (("00:00:01:1500").toList) = 2500 := by
  have h := timeToMilliseconds_long_final_field (("00").toList) (("00").toList)
    (("01").toList) (("1500").toList) (by decide) (by decide) (by decide)
    (by decide) (by decide) (by decide) (by decide) (by decide)
  have e : ("00:00:01:1500").toList =
      ("00").toList ++ ':' :: (("00").toList ++ ':' ::
        (("01").toList ++ ':' :: ("1500").toList)) := by decide
  rw [e, h.1]
  decide

lemma msOfParts_of_malformed (parts : List (List Char))
    (h : malformedParts parts = true) : msOfParts parts = 0 := by
  rcases parts with _ | ⟨p0, _ | ⟨p1, _ | ⟨p2, _ | ⟨p3, _ | ⟨p4, rest⟩⟩⟩⟩⟩
  · rfl
  · rfl
  · rfl
  · simp only [malformedParts, Bool.or_eq_true, Option.isNone_iff_eq_none] at h
    rw [msOfParts]
    cases hp0 : pyInt? p0 with
    | none => rfl
    | some v0 =>
      cases hp1 : pyInt? p1 with
      | none => rfl
      | some v1 =>
        cases hp2 : pyInt? (ljust p2 3 '0') with
        | none => rfl
        | some v2 =>
          rcases h with (e | e) | e
          · rw [hp0] at e; exact absurd e (by simp)
          · rw [hp1] at e; exact absurd e (by simp)
          · rw [hp2] at e; exact absurd e (by simp)
  · simp only [malformedParts, Bool.or_eq_true, Option.isNone_iff_eq_none] at h
    rw [msOfParts]
    cases hp0 : pyInt? p0 with
    | none => rfl
    | some v0 =>
      cases hp1 : pyInt? p1 with
      | none => rfl
      | some v1 =>
        cases hp2 : pyInt? p2 with
        | none => rfl
        | some v2 =>
          cases hp3 : pyInt? (ljust p3 3 '0') with
          | none => rfl
          | some v3 =>
            rcases h with ((e | e) | e) | e
            · rw [hp0] at e; exact absurd e (by simp)
            · rw [hp1] at e; exact absurd e (by simp)
            · rw [hp2] at e; exact absurd e (by simp)
            · rw [hp3] at e; exact absurd e (by simp)
  · rfl

/-- C7 (amended): For every timestamp text with a field count other than
3 or 4, with a non-numeric leading field, or whose final field is still
non-numeric after the right-padding with '0' to 3 digits,
`_time_to_milliseconds` returns 0 (the `except` handler catches the
`ValueError`, so nothing is raised to the caller; totality of the
embedding models this).  The original claim, quantified over any
non-numeric field, fails: an empty final field is non-numeric but is
turned into `"000"` by the padding (see the counterexample). -/
theorem timeToMilliseconds_malformed_zero (ts : List Char)
    (h : malformedParts (splitOnColon ts) = true) : timeToMilliseconds ts = 0 :=
  msOfParts_of_malformed (splitOnColon ts) h

/-- Witness for C7: a 2-field text and a non-numeric-field text both
parse to 0. -/
theorem timeToMilliseconds_malformed_zero_witness :
    timeToMilliseconds (("1:2").toList) = 0 ∧
    timeToMilliseconds (("aa:bb:cc").toList) = 0 :=
  ⟨timeToMilliseconds_malformed_zero (("1:2").toList) (by decide),
   timeToMilliseconds_malformed_zero (("aa:bb:cc").toList) (by decide)⟩

/-- Counterexample to C7 as stated: `"01:02:"` has exactly 3 fields and
its final field is the empty string, which is non-numeric (Python
`int('')` raises), yet the parser returns 62000, not 0, because the
field is right-padded to `"000"` before the `int` call. -/
theorem timeToMilliseconds_empty_final_field :
    splitOnColon (("01:02:").toList) = [['0', '1'], ['0', '2'], []] ∧
    pyInt? ([] : List Char) = none ∧
    timeToMilliseconds (("01:02:").toList) = 62000 ∧ (62000 : Int) ≠ 0 :=
  ⟨by decide, rfl, by decide, by decide⟩

/-! ## Lemmas about the assembler embedding -/

lemma fadeIn10_length (xs : List Int) : (fadeIn10 xs).length = xs.length := by
  unfold fadeIn10
  rw [List.length_zipWith, List.length_range, min_self]

lemma fadeInOut_length (xs : List Int) : (fadeInOut xs).length = xs.length := by
  unfold fadeInOut fadeOut10
  rw [List.length_reverse, fadeIn10_length, List.length_reverse, fadeIn10_length]

lemma combineFold_append_one (pre : List Segment) (seg : Segment) :
    combineFold (pre ++ [seg]) = combineStep (combineFold pre) seg := by
  unfold combineFold
  rw [List.foldl_append, List.foldl_cons, List.foldl_nil]

lemma combineStep_eq (T : List Int) (c : Int) (seg : Segment) :
    combineStep (T, c) seg =
      ((if timeToMilliseconds seg.start_time > c ∧
          timeToMilliseconds seg.start_time - c > 20 then
          T ++ List.replicate (timeToMilliseconds seg.start_time - c).toNat 0
        else T) ++ fadeInOut seg.final_audio,
        timeToMilliseconds seg.start_time +
          ((fadeInOut seg.final_audio).length : Int)) := by
  unfold combineStep
  by_cases h1 : timeToMilliseconds seg.start_time > c
  · by_cases h2 : timeToMilliseconds seg.start_time - c > 20
    · simp [h1, h2]
    · simp [h1, h2]
  · simp [h1]

lemma foldl_combineStep_length_mono : ∀ (segs : List Segment) (T : List Int) (c : Int),
    T.length ≤ (List.foldl combineStep (T, c) segs).1.length := by
  intro segs
  induction segs with
  | nil => intro T c; simp
  | cons seg rest ih =>
    intro T c
    rw [List.foldl_cons, combineStep_eq]
    refine le_trans ?_ (ih _ _)
    split_ifs <;> simp [List.length_append]

lemma slot_end_le_track_length : ∀ (segs : List Segment) (T : List Int) (c : Int),
    c ≤ (T.length : Int) → noElidedGap c segs = true →
    ∀ seg ∈ segs, timeToMilliseconds seg.start_time +
      ((fadeInOut seg.final_audio).length : Int) ≤
      ((List.foldl combineStep (T, c) segs).1.length : Int) := by
  intro segs
  induction segs with
  | nil =>
    intro T c _ _ seg hmem
    simp at hmem
  | cons sg rest ih =>
    intro T c hcT h seg hmem
    simp only [noElidedGap, Bool.and_eq_true, Bool.or_eq_true, decide_eq_true_eq] at h
    obtain ⟨h1, h2⟩ := h
    rw [List.foldl_cons, combineStep_eq]
    have hlen : timeToMilliseconds sg.start_time +
        ((fadeInOut sg.final_audio).length : Int) ≤
        ((((if timeToMilliseconds sg.start_time > c ∧
            timeToMilliseconds sg.start_time - c > 20 then
            T ++ List.replicate (timeToMilliseconds sg.start_time - c).toNat 0
          else T) ++ fadeInOut sg.final_audio).length : Int)) := by
      split_ifs with hcond
      · simp only [List.length_append, List.length_replicate]
        push_cast
        omega
      · simp only [List.length_append]
        push_cast
        rcases h1 with h1 | h1
        · omega
        · exact absurd ⟨by omega, h1⟩ hcond
    rcases List.mem_cons.mp hmem with rfl | hmem2
    · refine le_trans hlen ?_
      exact_mod_cast foldl_combineStep_length_mono rest _ _
    · exact ih _ _ hlen h2 seg hmem2

/-! ## Claims C2, C3, C4, C5, C9: the assembler -/

/-- C2 (amended): After each clip is appended, the write cursor
(`last_end_time`) is set to the clip's slot start plus the appended
clip's duration — its end on the original timeline — rather than being
advanced by the clip's duration.  It therefore equals the total length
of the material appended so far exactly on runs in which every clip
starts either exactly at the cursor or after a gap of more than 20 ms;
an elided micro-gap or an overlap makes the cursor diverge from the
appended length (see the counterexample). -/
theorem cursor_is_slot_end :
    (∀ (pre : List Segment) (seg : Segment),
      (combineFold (pre ++ [seg])).2 =
        timeToMilliseconds seg.start_time +
          ((fadeInOut seg.final_audio).length : Int)) ∧
    (∀ segments : List Segment, exactPlacement 0 segments = true →
      ((combineFold segments).1.length : Int) = (combineFold segments).2) := by
  constructor
  · intro pre seg
    rw [combineFold_append_one]
    rcases combineFold pre with ⟨T, c⟩
    rw [combineStep_eq]
  · have main : ∀ (segs : List Segment) (T : List Int) (c : Int),
        (T.length : Int) = c → exactPlacement c segs = true →
        ((List.foldl combineStep (T, c) segs).1.length : Int) =
          (List.foldl combineStep (T, c) segs).2 := by
      intro segs
      induction segs with
      | nil =>
        intro T c hTc _
        simpa using hTc
      | cons sg rest ih =>
        intro T c hTc h
        simp only [exactPlacement, Bool.and_eq_true, Bool.or_eq_true,
          decide_eq_true_eq] at h
        obtain ⟨h1, h2⟩ := h
        rw [List.foldl_cons, combineStep_eq]
        refine ih _ _ ?_ h2
        rcases h1 with h1 | h1
        · rw [if_neg (by omega)]
          simp only [List.length_append, fadeInOut_length]
          push_cast
          omega
        · rw [if_pos ⟨by omega, h1⟩]
          simp only [List.length_append, List.length_replicate, fadeInOut_length]
          push_cast
          omega
    intro segments h
    exact main segments [] 0 (by simp) h

/-- Witness for C2: a single clip starting at 0 ms has cursor equal to
its slot end, and a run whose placement is exact keeps the cursor equal
to the appended length. -/
theorem cursor_is_slot_end_witness :
    (combineFold [⟨0, ("00:00:000").toList, [1]⟩]).2 =
      timeToMilliseconds (("00:00:000").toList) + ((fadeInOut [1]).length : Int) ∧
    ((combineFold [⟨0, ("00:00:000").toList, [1]⟩]).1.length : Int) =
      (combineFold [⟨0, ("00:00:000").toList, [1]⟩]).2 :=
  ⟨cursor_is_slot_end.1 [] ⟨0, ("00:00:000").toList, [1]⟩,
   cursor_is_slot_end.2 [⟨0, ("00:00:000").toList, [1]⟩] (by decide)⟩

/-- Counterexample to C2 as stated: two clips, the first of 30 ms at
slot 0, the second of 5 ms at slot 40 ms.  The 10 ms gap at the second
clip is at most 20 ms, so no silence is inserted and 35 ms of material
are appended in total, yet the cursor ends at 40 + 5 = 45 ms: the cursor
did not advance by the appended durations and differs from the total
appended length. -/
theorem cursor_not_total_length :
    (combineFold [⟨0, ("00:00:000").toList, List.replicate 30 1⟩,
      ⟨1, ("00:00:040").toList, List.replicate 5 1⟩]).1.length = 35 ∧
    (combineFold [⟨0, ("00:00:000").toList, List.replicate 30 1⟩,
      ⟨1, ("00:00:040").toList, List.replicate 5 1⟩]).2 = 45 ∧
    (35 : Int) ≠ 45 :=
  ⟨by decide, by decide, by decide⟩

/-- C3 (amended): provided no positive gap of at most 20 ms is elided
during the run over the sorted clips (each clip starts at or before the
cursor, or after a gap of more than 20 ms), the assembled track's total
rendered duration is at least the latest `start_time + fitted duration`
among the included clips.  Without that proviso the claim fails (see the
counterexample): each elided micro-gap shortens the track relative to
the original timeline. -/
theorem track_duration_ge_latest_slot_end (segments : List Segment)
    (session_id : String) (hne : segments ≠ [])
    (hgap : noElidedGap 0 (sortSegments segments) = true) :
    ∀ seg ∈ segments, timeToMilliseconds seg.start_time +
      ((fadeInOut seg.final_audio).length : Int) ≤
      ((((combineAudioSegments segments session_id).2).getD []).length : Int) := by
  intro seg hmem
  have hmem2 : seg ∈ sortSegments segments :=
    ((List.perm_insertionSort _ segments).mem_iff).mpr hmem
  have hie : segments.isEmpty = false := by
    cases segments
    · exact absurd rfl hne
    · rfl
  have hres : (combineAudioSegments segments session_id).2 =
      some (combineFold (sortSegments segments)).1 := by
    simp [combineAudioSegments, hie]
  rw [hres, Option.getD_some]
  exact slot_end_le_track_length (sortSegments segments) [] 0 (by simp) hgap seg hmem2

/-- Witness for C3: one 30 ms clip at slot 0 gives a 30 ms track, which
covers its slot end. -/
theorem track_duration_ge_latest_slot_end_witness :
    timeToMilliseconds (("00:00:000").toList) +
      ((fadeInOut (List.replicate 30 1)).length : Int) ≤
      ((((combineAudioSegments [⟨0, ("00:00:000").toList, List.replicate 30 1⟩]
        ("w")).2).getD []).length : Int) :=
  track_duration_ge_latest_slot_end
    [⟨0, ("00:00:000").toList, List.replicate 30 1⟩] ("w") (by simp) (by decide)
    ⟨0, ("00:00:000").toList, List.replicate 30 1⟩ (by simp)

/-- Counterexample to C3 as stated: a 30 ms clip at slot 0 followed by a
5 ms clip at slot 40 ms.  The 10 ms gap is elided, so the track is
30 + 5 = 35 ms long, but the latest `start_time + fitted duration` is
40 + 5 = 45 ms, exceeding the total duration. -/
theorem track_duration_lt_latest_slot_end :
    (((combineAudioSegments [⟨0, ("00:00:000").toList, List.replicate 30 1⟩,
      ⟨1, ("00:00:040").toList, List.replicate 5 1⟩] ("cex")).2).map
        List.length) = some 35 ∧
    timeToMilliseconds (("00:00:040").toList) +
      ((fadeInOut (List.replicate 5 1)).length : Int) = 45 ∧
    ¬((45 : Int) ≤ 35) :=
  ⟨by decide, by decide, by decide⟩

/-- C4: For every clip processed by the assembly loop whose slot start
(in ms) is strictly greater than the current cursor, silence of exactly
`slot_start - cursor` milliseconds is appended before the clip when that
gap exceeds 20 ms, and nothing is inserted — the clip is appended
contiguously to the existing material — when the gap is at most 20 ms. -/
theorem silence_insertion_gap_rule (pre : List Segment) (seg : Segment)
    (hgt : timeToMilliseconds seg.start_time > (combineFold pre).2) :
    (timeToMilliseconds seg.start_time - (combineFold pre).2 > 20 →
      (combineFold (pre ++ [seg])).1 = (combineFold pre).1 ++
        List.replicate (timeToMilliseconds seg.start_time -
          (combineFold pre).2).toNat 0 ++ fadeInOut seg.final_audio) ∧
    (timeToMilliseconds seg.start_time - (combineFold pre).2 ≤ 20 →
      (combineFold (pre ++ [seg])).1 =
        (combineFold pre).1 ++ fadeInOut seg.final_audio) := by
  constructor
  · intro hgap
    rw [combineFold_append_one]
    rcases hT : combineFold pre with ⟨T, c⟩
    rw [hT] at hgt hgap
    rw [combineStep_eq, if_pos ⟨hgt, hgap⟩, List.append_assoc]
  · intro hgap
    rw [combineFold_append_one]
    rcases hT : combineFold pre with ⟨T, c⟩
    rw [hT] at hgt hgap
    rw [combineStep_eq, if_neg (fun hc => absurd hc.2 (by omega))]

/-- Witness for C4: both branches at concrete inputs — a clip at slot
100 ms against cursor 0 receives exactly 100 ms of silence; a clip at
slot 10 ms against cursor 0 is appended with no silence. -/
theorem silence_insertion_gap_rule_witness :
    (combineFold [⟨0, ("00:00:100").toList, [5]⟩]).1 =
      [] ++ List.replicate 100 0 ++ fadeInOut [5] ∧
    (combineFold [⟨0, ("00:00:010").toList, [5]⟩]).1 =
      [] ++ fadeInOut [5] := by
  constructor
  · have h := (silence_insertion_gap_rule [] ⟨0, ("00:00:100").toList, [5]⟩
      (by decide)).1 (by decide)
    simpa using h
  · exact (silence_insertion_gap_rule [] ⟨0, ("00:00:010").toList, [5]⟩
      (by decide)).2 (by decide)

/-- C5: For every clip processed by the assembly loop whose slot start is
at most the current cursor, the clip is appended directly after the
previously written material (the spec's write position), with no
overlap-mixing of samples — the result is the plain concatenation, whose
length is the sum — and the loop body is total, so assembly does not
fail on the overlap. -/
theorem overlap_appended_at_cursor (pre : List Segment) (seg : Segment)
    (hle : timeToMilliseconds seg.start_time ≤ (combineFold pre).2) :
    (combineFold (pre ++ [seg])).1 =
      (combineFold pre).1 ++ fadeInOut seg.final_audio ∧
    (combineFold (pre ++ [seg])).1.length =
      (combineFold pre).1.length + seg.final_audio.length := by
  have h : (combineFold (pre ++ [seg])).1 =
      (combineFold pre).1 ++ fadeInOut seg.final_audio := by
    rw [combineFold_append_one]
    rcases hT : combineFold pre with ⟨T, c⟩
    rw [hT] at hle
    rw [combineStep_eq, if_neg (fun hc => absurd hc.1 (by omega))]
  exact ⟨h, by rw [h, List.length_append, fadeInOut_length]⟩

/-- Witness for C5: a clip whose slot start 0 equals the cursor 0 is
appended at the front of the empty track with no mixing. -/
theorem overlap_appended_at_cursor_witness :
    (combineFold [⟨0, ("00:00:000").toList, [7]⟩]).1 =
      [] ++ fadeInOut [7] ∧
    (combineFold [⟨0, ("00:00:000").toList, [7]⟩]).1.length =
      ([] : List Int).length + ([7] : List Int).length :=
  overlap_appended_at_cursor [] ⟨0, ("00:00:000").toList, [7]⟩ (by decide)

/-- C9: `_combine_audio_segments` on an empty clip list returns the
sentinel `""` and writes no audio file, a result distinguishable from
every successful assembly, whose returned path
`data/output/dubbed_audio_{session_id}.wav` is never the empty string
and which always writes a file. -/
theorem combine_empty_distinct_result (session_id : String) :
    combineAudioSegments [] session_id = ("", none) ∧
    ∀ segments : List Segment, segments ≠ [] →
      (combineAudioSegments segments session_id).1 ≠ "" ∧
      (combineAudioSegments segments session_id).2 ≠ none := by
  constructor
  · rfl
  · intro segments hne
    have hie : segments.isEmpty = false := by
      cases segments
      · exact absurd rfl hne
      · rfl
    constructor
    · simp only [combineAudioSegments, hie, Bool.false_eq_true, if_false]
      intro heq
      have hd := congrArg String.data heq
      rw [String.data_append, String.data_append] at hd
      simp at hd
    · simp [combineAudioSegments, hie]

/-- Witness for C9: the empty list gives `("", none)`; a one-clip list
gives a non-empty path. -/
theorem combine_empty_distinct_result_witness :
    combineAudioSegments [] ("w") = ("", none) ∧
    (combineAudioSegments [⟨0, ("00:00:000").toList, [1]⟩] ("w")).1 ≠ "" :=
  ⟨(combine_empty_distinct_result ("w")).1,
   ((combine_empty_distinct_result ("w")).2 [⟨0, ("00:00:000").toList, [1]⟩]
     (by simp)).1⟩

/-! ## Claims C1, C8: the duration fitter -/

lemma fixLength_length (xs : List Int) (size : Nat) :
    (fixLength xs size).length = size := by
  unfold fixLength
  split_ifs with h
  · rw [List.length_take]
    omega
  · rw [List.length_append, List.length_replicate]
    omega

/-- C1 (amended): For every source clip of positive duration and every
positive target duration for which fitting succeeds, the fitted clip's
sample count is exactly `int(target_duration * sample_rate)` — Python
`int()` truncates, i.e. the floor of the product, not its rounding (see
the counterexample for the difference) — and hence its duration equals
the target to within one sample period, regardless of the stretch
ratio. -/
theorem fitted_sample_count (y : List Int) (sr : Nat) (target : ℚ)
    (y_stretched out : List Int)
    (h : adjustAudioSpeed y sr target y_stretched = some out) :
    (out.length : Int) = ⌊target * (sr : ℚ)⌋ ∧
    |((out.length : ℚ) / (sr : ℚ)) - target| < 1 / (sr : ℚ) := by
  simp only [adjustAudioSpeed] at h
  by_cases h1 : (y.length : ℚ) / (sr : ℚ) ≤ 0 ∨ target ≤ 0
  · rw [if_pos h1] at h
    exact absurd h (by simp)
  · rw [if_neg h1] at h
    push_neg at h1
    obtain ⟨hcur, htgt⟩ := h1
    have hsr : (0 : ℚ) < (sr : ℚ) := by
      rcases Nat.eq_zero_or_pos sr with hz | hp
      · rw [hz] at hcur
        norm_num at hcur
      · exact_mod_cast hp
    have hflo : (0 : Int) ≤ ⌊target * (sr : ℚ)⌋ :=
      Int.floor_nonneg.mpr (le_of_lt (mul_pos htgt hsr))
    by_cases h2 : y_stretched.length = 0 ∧ ⌊target * (sr : ℚ)⌋ > 0
    · rw [if_pos h2] at h
      exact absurd h (by simp)
    · rw [if_neg h2] at h
      have hout : out = fixLength y_stretched (⌊target * (sr : ℚ)⌋).toNat :=
        (Option.some_injective _ h).symm
      have hlenInt : (out.length : Int) = ⌊target * (sr : ℚ)⌋ := by
        rw [hout, fixLength_length]
        exact Int.toNat_of_nonneg hflo
      refine ⟨hlenInt, ?_⟩
      have hlenQ : (out.length : ℚ) = ((⌊target * (sr : ℚ)⌋ : Int) : ℚ) := by
        exact_mod_cast hlenInt
      have hsne : (sr : ℚ) ≠ 0 := ne_of_gt hsr
      have hfl := Int.floor_le (target * (sr : ℚ))
      have hfl2 := Int.lt_floor_add_one (target * (sr : ℚ))
      rw [abs_sub_lt_iff]
      constructor
      · have e : ((⌊target * (sr : ℚ)⌋ : Int) : ℚ) / (sr : ℚ) - target =
            (((⌊target * (sr : ℚ)⌋ : Int) : ℚ) - target * (sr : ℚ)) / (sr : ℚ) := by
          field_simp
          ring
        rw [hlenQ, e]
        exact (div_lt_div_iff_of_pos_right hsr).mpr (by linarith)
      · have e : target - ((⌊target * (sr : ℚ)⌋ : Int) : ℚ) / (sr : ℚ) =
            (target * (sr : ℚ) - ((⌊target * (sr : ℚ)⌋ : Int) : ℚ)) / (sr : ℚ) := by
          field_simp
        rw [hlenQ, e]
        exact (div_lt_div_iff_of_pos_right hsr).mpr (by linarith)

/-- Witness for C1: a successful fit of a 1-sample clip at 1 Hz to a
1-second target yields exactly `floor(1*1) = 1` sample, within one
sample period of the target. -/
theorem fitted_sample_count_witness :
    ((([2] : List Int).length : Int) = ⌊(1 : ℚ) * ((1 : Nat) : ℚ)⌋) ∧
    |((([2] : List Int).length : ℚ) / ((1 : Nat) : ℚ)) - 1| < 1 / ((1 : Nat) : ℚ) :=
  fitted_sample_count [1] 1 1 [2] [2] (by norm_num [adjustAudioSpeed, fixLength])

/-- Counterexample to C1 as stated: a 1-sample clip at 2 Hz fitted to a
target of 3/4 s succeeds and produces `int(3/4 * 2) = int(1.5) = 1`
sample, whereas `round(3/4 * 2) = 2`: the sample count is the truncation
of `target * sample_rate`, not its rounding. -/
theorem fitted_sample_count_not_round :
    adjustAudioSpeed [1] 2 (3/4) [1] = some [1] ∧
    round ((3/4 : ℚ) * ((2 : Nat) : ℚ)) = 2 ∧
    (([1] : List Int).length : Int) ≠ 2 := by
  refine ⟨by norm_num [adjustAudioSpeed, fixLength], ?_, by decide⟩
  rw [show ((3/4 : ℚ) * ((2 : Nat) : ℚ)) = 3/2 by norm_num, round_eq,
    show ((3/2 : ℚ) + 1/2) = ((2 : Int) : ℚ) by norm_num, Int.floor_intCast]

/-- C8 (amended): For every clip of positive duration and positive target
duration whose target length in samples `int(target * sr)` is positive,
an empty time-stretch output makes `_adjust_audio_speed` report failure
(return `False`) and write nothing, and the caller then substitutes the
unfitted raw clip.  The guard on line 260 additionally requires
`target_length_samples > 0`; when `int(target * sr) = 0` the function
instead succeeds and writes a zero-length clip (see the
counterexample). -/
theorem stretch_empty_reported_failure (y : List Int) (sr : Nat) (target : ℚ)
    (raw : List Int)
    (hcur : 0 < (y.length : ℚ) / (sr : ℚ)) (htgt : 0 < target)
    (hpos : 0 < ⌊target * (sr : ℚ)⌋) :
    adjustAudioSpeed y sr target [] = none ∧
    chooseFinalAudio raw (adjustAudioSpeed y sr target []) = raw := by
  have hnone : adjustAudioSpeed y sr target [] = none := by
    simp only [adjustAudioSpeed]
    rw [if_neg (by rintro (h | h) <;> linarith), if_pos ⟨rfl, hpos⟩]
  exact ⟨hnone, by rw [hnone]; rfl⟩

/-- Witness for C8: a 1-sample clip at 1 Hz with a 1-second target and an
empty stretch output is reported as a failure, and the raw clip is
substituted. -/
theorem stretch_empty_reported_failure_witness :
    adjustAudioSpeed [1] 1 1 [] = none ∧
    chooseFinalAudio [9] (adjustAudioSpeed [1] 1 1 []) = [9] :=
  stretch_empty_reported_failure [1] 1 1 [9] (by norm_num) (by norm_num)
    (by norm_num)

/-- Counterexample to C8 as stated: a 2-sample clip at 2 Hz (source
duration 1 s > 0) with target 1/4 s > 0 and empty stretch output is
not detected: `int(1/4 * 2) = 0`, the guard does not fire, and the
function succeeds, writing a zero-length fitted clip, which the caller
then uses instead of the raw clip. -/
theorem stretch_empty_small_target_not_failure :
    0 < ((([1, 1] : List Int).length : ℚ) / ((2 : Nat) : ℚ)) ∧
    0 < (1/4 : ℚ) ∧
    adjustAudioSpeed [1, 1] 2 (1/4) [] = some [] ∧
    chooseFinalAudio [9] (adjustAudioSpeed [1, 1] 2 (1/4) []) = [] := by
  refine ⟨by norm_num, by norm_num, by norm_num [adjustAudioSpeed, fixLength], ?_⟩
  norm_num [adjustAudioSpeed, fixLength, chooseFinalAudio]
